import Mathlib

/-!
Shallow embedding of `aiortp/stats.py`: the RTP sequence reconciler
(`JitterBuffer.__init__`) and the statistics calculator (`StreamStats.__init__`),
together with theorems settling the specification claims about them.

Python numbers (ints, floats) are modelled as `Int` / `ℚ`; `bytes` payloads as
`List Nat`; a raised exception as `Except.error` carrying a `PyError`.
The packet wrapper objects (`pkt.packet.seq`, `pkt.frametime`, ...) are
flattened into a single `Packet` record.
-/

deriving instance DecidableEq for Except

namespace Aiortp

/-- Constant `RTP_MAX_SEQ = 65535` from the source. -/
def RTP_MAX_SEQ : Int := 65535

/-- The kinds of exception the modelled code can raise.  `indexError`,
`zeroDivisionError` and `valueError` are Python built-ins; `emptyStreamError`
and `insufficientDataError` are the error classes named by the specification
(no definition of them exists in the source). -/
inductive PyError where
  | indexError
  | zeroDivisionError
  | valueError
  | emptyStreamError
  | insufficientDataError
deriving DecidableEq, Repr

/-- A captured packet record: Python accesses `i.packet.seq`,
`i.packet.timestamp`, `i.packet.p_type`, `i.packet.payload`, `i.frametime`;
we flatten the wrapper. -/
structure Packet where
  seq : Int
  timestamp : ℚ
  p_type : Nat
  payload : List Nat
  frametime : ℚ
deriving DecidableEq, Repr

/-- Helper `intRangeGo a n` is `[a, a+1, ..., a+n-1]`. -/
def intRangeGo (a : Int) : Nat → List Int
  | 0 => []
  | n + 1 => a :: intRangeGo (a + 1) n

/-- Python `range(a, b)` over integers: `[a, a+1, ..., b-1]` (empty if `b ≤ a`). -/
def intRange (a b : Int) : List Int :=
  intRangeGo a (b - a).toNat

/-- The loop body of the Python closure `lookahead`:
`for i in gap: if i not in lookahead_buf: loss += 1`. -/
def lookaheadCount (buf : List Int) : List Int → Nat → Nat
  | [], loss => loss
  | i :: rest, loss => lookaheadCount buf rest (if i ∈ buf then loss else loss + 1)

/-- The Python closure `lookahead(gap, position, window=10)`:
`lookahead_buf = stream[position:position+window]`, then count the gap values
not present in the buffer.  The call sites always use the default window 10,
which we inline. -/
def lookahead (stream : List Int) (gap : List Int) (position : Nat) : Nat :=
  lookaheadCount ((stream.drop position).take 10) gap 0

/-- The mutable local state of the reconciliation loop in
`JitterBuffer.__init__`: `expected_seq`, `lost_packets`, `duplicates`, and
`duplicate_mask`. -/
structure RState where
  expected : Int
  lost : Nat
  dups : Nat
  mask : List Bool
deriving DecidableEq, Repr

/-- Source line `if expected_seq > RTP_MAX_SEQ: expected_seq = 0` — the per-iteration
wraparound reset of the expected counter. -/
def resetWrap (s : RState) : RState :=
  if RTP_MAX_SEQ < s.expected then { s with expected := 0 } else s

/-- One iteration of the `for position, current_seq in enumerate(stream)` loop:
the four-branch `if/elif` classification followed by the wraparound reset.
Note that when no branch matches (the silent fall-through case) the state is
unchanged: in particular no bit is appended to the mask. -/
def step (stream : List Int) (first : Int) (position : Nat) (current : Int)
    (s : RState) : RState :=
  resetWrap <|
    if current = s.expected then
      { s with mask := s.mask ++ [true], expected := s.expected + 1 }
    else if current = s.expected - 1 then
      { s with dups := s.dups + 1, mask := s.mask ++ [false] }
    else if s.expected < current then
      { s with lost := s.lost + lookahead stream (intRange s.expected current) position,
               expected := current + 1,
               mask := s.mask ++ [true] }
    else if current ≤ first then
      { s with lost := s.lost + lookahead stream
                 (intRange s.expected (RTP_MAX_SEQ + 1) ++ intRange 0 current) position,
               expected := current + 1,
               mask := s.mask ++ [true] }
    else
      s

/-- Run the classification loop over the remaining stream, `position` being the
index of the first remaining element in the full stream. -/
def runFrom (stream : List Int) (first : Int) : Nat → List Int → RState → RState
  | _, [], s => s
  | position, current :: rest, s =>
      runFrom stream first (position + 1) rest (step stream first position current s)

/-- The final loop state of `JitterBuffer.__init__` on a packet list
(for the empty list, the loop never runs; the dummy initial state is returned,
but `jitterBuffer` errors out before using it). -/
def reconcileState (packets : List Packet) : RState :=
  match packets with
  | [] => { expected := 0, lost := 0, dups := 0, mask := [] }
  | p :: _ =>
      let stream := packets.map Packet.seq
      runFrom stream p.seq 0 stream
        { expected := p.seq, lost := 0, dups := 0, mask := [] }

/-- Python `itertools.compress(data, selectors)`: keep the elements whose selector is
true, truncating at the shorter of the two lists. -/
def compress {α : Type} (l : List α) (mask : List Bool) : List α :=
  ((l.zip mask).filter (fun pb => pb.2)).map (fun pb => pb.1)

/-- The result fields of `JitterBuffer`: `duplicates` (ratio), `lost` (count),
`loss` (ratio) and `_data` (the deduplicated packet list). -/
structure JB where
  duplicates : ℚ
  lost : Nat
  loss : ℚ
  data : List Packet
deriving DecidableEq, Repr

/-- Source `JitterBuffer.__init__`: on an empty packet list, `stream[0]` raises
`IndexError`; otherwise run the classification loop and package the results. -/
def jitterBuffer (packets : List Packet) : Except PyError JB :=
  match packets with
  | [] => Except.error PyError.indexError
  | _ :: _ =>
      let r := reconcileState packets
      Except.ok
        { duplicates := (r.dups : ℚ) / (packets.length : ℚ),
          lost := r.lost,
          loss := (r.lost : ℚ) / (packets.length : ℚ),
          data := compress packets r.mask }

/-- A packet with a given sequence number and all other fields zeroed, used for
concrete reconciler test streams (the reconciler reads only `seq`). -/
def mkPkt (n : Int) : Packet :=
  { seq := n, timestamp := 0, p_type := 0, payload := [], frametime := 0 }

/-- Numpy `np.diff`: consecutive differences of a list. -/
def diffs : List ℚ → List ℚ
  | a :: b :: rest => (b - a) :: diffs (b :: rest)
  | _ => []

/-- The loop of `_calc_jitter`: `jitter[idx] = last = last + (diff - last) / 16`,
threading the accumulator `last` through the sequence. -/
def calcJitterGo (last : ℚ) : List ℚ → List ℚ
  | [] => []
  | d :: rest => (last + (d - last) / 16) :: calcJitterGo (last + (d - last) / 16) rest

/-- Source `_calc_jitter(deltas)`: the one-pole smoothing filter seeded with `last = 0`. -/
def calcJitter (deltas : List ℚ) : List ℚ :=
  calcJitterGo 0 deltas

/-- Numpy `np.fromstring(raw, dtype=np.int8)`: reinterpret a byte (0..255) as a
signed 8-bit integer. -/
def byteToInt8 (b : Nat) : Int :=
  if b < 128 then (b : Int) else (b : Int) - 256

/-- The `RTP_PAYLOADS` table with the `.get(codec, str(codec))` fallback. -/
def RTP_PAYLOADS (c : Nat) : String :=
  if c = 0 then "PCMU" else if c = 3 then "GSM" else if c = 4 then "G723"
  else if c = 8 then "PCMA" else if c = 9 then "G722" else if c = 10 then "L16"
  else if c = 11 then "L16" else if c = 13 then "CN" else if c = 18 then "G729"
  else toString c

/-- The clean (deduplicated) packet sequence produced by the reconciler
(empty when the reconciler itself fails, which only happens on empty input). -/
def cleanOf (packets : List Packet) : List Packet :=
  match jitterBuffer packets with
  | Except.error _ => []
  | Except.ok jb => jb.data

/-- The per-gap instantaneous jitter samples of `StreamStats.__init__`:
`abs(frame_delta_ms - rtp_delta_ms)` where `frame_delta_ms = np.diff(frametimes)*1000`
and `rtp_delta_ms = np.diff(timestamps) * (1/8000) * 1000`. -/
def absDiffsOf (clean : List Packet) : List ℚ :=
  List.zipWith (fun d r => |d - r|)
    ((diffs (clean.map Packet.frametime)).map (fun d => d * 1000))
    ((diffs (clean.map Packet.timestamp)).map (fun d => d * (1 / 8000) * 1000))

/-- The smoothed jitter series computed by the statistics calculator for a
packet list (after reconciliation). -/
def jitterOf (packets : List Packet) : List ℚ :=
  calcJitter (absDiffsOf (cleanOf packets))

/-- The fields of the `StreamStats` record.  The RMS level
`20*log10(norm(audio)/sqrt(n))` is irrational, so the record carries the
rational `rmsSq = (Σ audio[i]²)/n` it is a strictly monotone function of;
`rmsSq = none` models the NaN produced on empty audio (`0.0/0.0`, and
`math.log10(nan)` returns NaN without raising). -/
structure Stats where
  codecs : List String
  deltas : List ℚ
  duration : ℚ
  sample_rate : Nat
  jitter : List ℚ
  audio : List Int
  rmsSq : Option ℚ
deriving DecidableEq, Repr

/-- Source `b''.join(x.packet.payload ...)` then `np.fromstring(..., dtype=np.int8)`:
the concatenated payload bytes as signed 8-bit samples. -/
def audioOf (clean : List Packet) : List Int :=
  ((clean.map Packet.payload).flatten).map byteToInt8

/-- The part of `StreamStats.__init__` that runs on the clean sequence:
`frametimes[-1]` raises `IndexError` on an empty sequence; `math.log10`
raises `ValueError` (math domain error) exactly when the concatenated audio
is non-empty with zero energy; on empty audio numpy yields NaN without
raising (`np.fromstring(b'')` is modelled as the empty array). -/
def streamStatsClean (clean : List Packet) : Except PyError Stats :=
  match clean with
  | [] => Except.error PyError.indexError
  | c :: cs =>
      let frametimes := (c :: cs).map Packet.frametime
      let audio := audioOf (c :: cs)
      let sumsq : Int := (audio.map (fun x => x * x)).sum
      if audio ≠ [] ∧ sumsq = 0 then
        Except.error PyError.valueError
      else
        Except.ok
          { codecs := (((c :: cs).map Packet.p_type).dedup).map RTP_PAYLOADS,
            deltas := (diffs frametimes).map (fun d => d * 1000),
            duration := frametimes.getLastD 0 - c.frametime,
            sample_rate := 8000,
            jitter := calcJitter (absDiffsOf (c :: cs)),
            audio := audio,
            rmsSq := if audio.length = 0 then none
                     else some ((sumsq : ℚ) / (audio.length : ℚ)) }

/-- Source `StreamStats.__init__`: build the jitter buffer (propagating its
`IndexError` on empty input), then compute the statistics over its clean
sequence. -/
def streamStats (packets : List Packet) : Except PyError Stats :=
  match jitterBuffer packets with
  | Except.error e => Except.error e
  | Except.ok jb => streamStatsClean jb.data

/-- Concrete stream for the forward-gap loss count (C2): `seq` values 5–7 are
missing and never arrive later. -/
def c2pkts : List Packet := [0, 1, 2, 3, 4, 8, 9, 10].map mkPkt

/-- Concrete stream refuting the "next 10 packets" window reading (C2): the
missing `seq` 1 arrives exactly 10 positions after the gap-detecting packet. -/
def c2cexPkts : List Packet := [0, 2, 3, 4, 5, 6, 7, 8, 9, 10, 11, 1].map mkPkt

/-- Concrete stream for C7: `seq` 5–7 missing at their expected positions but
arriving reordered within the lookahead window. -/
def c7pkts : List Packet := [0, 1, 2, 3, 4, 8, 5, 6, 7, 9].map mkPkt

/-- Concrete stream for the 16-bit wraparound property (C6). -/
def c6pkts : List Packet := [65533, 65534, 65535, 0, 1].map mkPkt

/-- Concrete stream whose fourth packet falls through every classification
branch (`seq = 6` with `expected = 8`, `first = 5`), so no mask bit is
appended for it (C1 counterexample). -/
def c1cexPkts : List Packet := [5, 6, 7, 6].map mkPkt

/-- Concrete in-order stream used to witness the amended C1 and C9. -/
def c1wPkts : List Packet := [0, 1, 2].map mkPkt

/-- Concrete stream with an immediate repeat of `seq = 65535`: the expected
counter has just wrapped to 0, so the repeat hits the forward-gap branch
instead of the duplicate branch (C3 counterexample). -/
def c3cexPkts : List Packet := [65535, 65535].map mkPkt

/-- Concrete stream with an immediate repeat of `seq = 2` (C3 witness). -/
def c3wPkts : List Packet := [0, 1, 2, 2, 3, 4].map mkPkt

/-- Concrete contiguous stream for the C9 witness. -/
def c9wPkts : List Packet := [10, 11, 12].map mkPkt

/-- Concrete two-packet stream `[seq 1, seq 0]` hitting the wraparound-loss
branch (C10). -/
def c10pkts : List Packet := [1, 0].map mkPkt

/-- A packet with real timestamp/payload data, for the statistics claims. -/
def pA : Packet :=
  { seq := 0, timestamp := 0, p_type := 0, payload := [1], frametime := 0 }

/-- A second packet, one second (8000 RTP ticks at 8 kHz) after `pA`, so the
frame delta (1000 ms) matches the RTP-implied delta exactly. -/
def pB : Packet :=
  { seq := 1, timestamp := 8000, p_type := 0, payload := [1], frametime := 1 }

/-- Two-packet input for the jitter-series claim (C8). -/
def c8pkts : List Packet := [pA, pB]

/-- The statistics record produced on `c8pkts`. -/
def c8stats : Stats :=
  { codecs := ["PCMU"], deltas := [1000], duration := 1, sample_rate := 8000,
    jitter := [0], audio := [1, 1], rmsSq := some 1 }

/-- Single-packet input for the `InsufficientDataError` claim (C5). -/
def c5pkts : List Packet := [pA]

/-- The statistics record produced on the single-packet input `c5pkts`:
no deltas, empty jitter series, yet no error. -/
def c5stats : Stats :=
  { codecs := ["PCMU"], deltas := [], duration := 0, sample_rate := 8000,
    jitter := [], audio := [1], rmsSq := some 1 }

end Aiortp

namespace Aiortp

/-- Unfolding of `jitterBuffer` on a non-empty packet list. -/
theorem jitterBuffer_eq (packets : List Packet) (h : packets ≠ []) :
    jitterBuffer packets = Except.ok
      { duplicates := ((reconcileState packets).dups : ℚ) / (packets.length : ℚ),
        lost := (reconcileState packets).lost,
        loss := ((reconcileState packets).lost : ℚ) / (packets.length : ℚ),
        data := compress packets (reconcileState packets).mask } := by
  cases packets with
  | nil => exact absurd rfl h
  | cons p rest => rfl

/-- Congruence helper for `JB` records with a fixed shape, so that the rational
ratio fields can be settled by `norm_num` and the rest by `decide`. -/
theorem jbCongr {d d' : ℚ} {l l' : Nat} {q q' : ℚ} {x x' : List Packet}
    (h1 : d = d') (h2 : l = l') (h3 : q = q') (h4 : x = x') :
    JB.mk d l q x = JB.mk d' l' q' x' := by
  rw [h1, h2, h3, h4]

/-- Congruence helper for `Stats` records. -/
theorem statsCongr {c c' : List String} {d d' : List ℚ} {u u' : ℚ} {r r' : Nat}
    {j j' : List ℚ} {a a' : List Int} {m m' : Option ℚ}
    (h1 : c = c') (h2 : d = d') (h3 : u = u') (h4 : r = r') (h5 : j = j')
    (h6 : a = a') (h7 : m = m') :
    Stats.mk c d u r j a m = Stats.mk c' d' u' r' j' a' m' := by
  rw [h1, h2, h3, h4, h5, h6, h7]

theorem intRangeGo_length (n : Nat) : ∀ a : Int, (intRangeGo a n).length = n := by
  induction n with
  | zero => intro a; rfl
  | succ n ih => intro a; simp [intRangeGo, ih]

theorem intRange_length (a b : Int) : (intRange a b).length = (b - a).toNat := by
  rw [intRange, intRangeGo_length]

theorem mem_intRangeGo (n : Nat) : ∀ (a g : Int), g ∈ intRangeGo a n ↔ a ≤ g ∧ g < a + n := by
  induction n with
  | zero => intro a g; simp [intRangeGo]
  | succ n ih => intro a g; simp [intRangeGo, ih]; omega

theorem mem_intRange {g a b : Int} : g ∈ intRange a b ↔ a ≤ g ∧ g < b := by
  rw [intRange, mem_intRangeGo]; omega

theorem intRange_eq_nil {a b : Int} (h : b ≤ a) : intRange a b = [] := by
  rw [intRange, show (b - a).toNat = 0 by omega]; rfl

theorem intRange_cons {a b : Int} (h : a < b) : intRange a b = a :: intRange (a + 1) b := by
  rw [intRange, intRange, show (b - a).toNat = (b - (a + 1)).toNat + 1 by omega]; rfl

theorem lookaheadCount_eq (buf : List Int) :
    ∀ (gap : List Int) (n : Nat),
      lookaheadCount buf gap n = n + (gap.filter (fun g => decide (g ∉ buf))).length := by
  intro gap
  induction gap with
  | nil => intro n; simp [lookaheadCount]
  | cons i rest ih =>
      intro n
      by_cases hi : i ∈ buf <;> simp [lookaheadCount, hi, ih] <;> omega

theorem lookahead_eq (stream gap : List Int) (pos : Nat) :
    lookahead stream gap pos =
      (gap.filter (fun g => decide (g ∉ (stream.drop pos).take 10))).length := by
  rw [lookahead, lookaheadCount_eq]; omega

theorem lookahead_of_none (stream gap : List Int) (pos : Nat)
    (h : ∀ g ∈ gap, g ∉ (stream.drop pos).take 10) :
    lookahead stream gap pos = gap.length := by
  rw [lookahead_eq]
  congr 1
  rw [List.filter_eq_self]
  intro g hg
  simpa using h g hg

theorem resetWrap_of_le {s : RState} (h : s.expected ≤ 65535) : resetWrap s = s := by
  rw [resetWrap, if_neg]
  rw [RTP_MAX_SEQ]
  omega

theorem resetWrap_of_gt {s : RState} (h : 65535 < s.expected) :
    resetWrap s = { s with expected := 0 } := by
  rw [resetWrap, if_pos]
  rw [RTP_MAX_SEQ]
  omega

theorem step_in_order {stream : List Int} {first : Int} {pos : Nat} {current : Int}
    {s : RState} (h : current = s.expected) :
    step stream first pos current s =
      resetWrap { s with mask := s.mask ++ [true], expected := s.expected + 1 } := by
  rw [step, if_pos h]

theorem step_dup {stream : List Int} {first : Int} {pos : Nat} {current : Int}
    {s : RState} (h1 : current ≠ s.expected) (h2 : current = s.expected - 1) :
    step stream first pos current s =
      resetWrap { s with dups := s.dups + 1, mask := s.mask ++ [false] } := by
  rw [step, if_neg h1, if_pos h2]

theorem step_gap {stream : List Int} {first : Int} {pos : Nat} {current : Int}
    {s : RState} (h : s.expected < current) :
    step stream first pos current s =
      resetWrap { s with
        lost := s.lost + lookahead stream (intRange s.expected current) pos,
        expected := current + 1,
        mask := s.mask ++ [true] } := by
  rw [step, if_neg (by omega), if_neg (by omega), if_pos h]

theorem step_wrapgap {stream : List Int} {first : Int} {pos : Nat} {current : Int}
    {s : RState} (h1 : current ≠ s.expected) (h2 : current ≠ s.expected - 1)
    (h3 : ¬s.expected < current) (h4 : current ≤ first) :
    step stream first pos current s =
      resetWrap { s with
        lost := s.lost +
          lookahead stream (intRange s.expected (RTP_MAX_SEQ + 1) ++ intRange 0 current) pos,
        expected := current + 1,
        mask := s.mask ++ [true] } := by
  rw [step, if_neg h1, if_neg h2, if_neg h3, if_pos h4]

theorem step_fallthrough {stream : List Int} {first : Int} {pos : Nat} {current : Int}
    {s : RState} (h1 : current ≠ s.expected) (h2 : current ≠ s.expected - 1)
    (h3 : ¬s.expected < current) (h4 : ¬current ≤ first) :
    step stream first pos current s = resetWrap s := by
  rw [step, if_neg h1, if_neg h2, if_neg h3, if_neg h4]

theorem runFrom_nil (stream : List Int) (first : Int) (pos : Nat) (s : RState) :
    runFrom stream first pos [] s = s := rfl

theorem runFrom_cons (stream : List Int) (first : Int) (pos : Nat) (c : Int)
    (rest : List Int) (s : RState) :
    runFrom stream first pos (c :: rest) s =
      runFrom stream first (pos + 1) rest (step stream first pos c s) := rfl

theorem runFrom_append (stream : List Int) (first : Int) :
    ∀ (l1 l2 : List Int) (pos : Nat) (s : RState),
      runFrom stream first pos (l1 ++ l2) s =
        runFrom stream first (pos + l1.length) l2 (runFrom stream first pos l1 s) := by
  intro l1
  induction l1 with
  | nil => intro l2 pos s; simp [runFrom_nil]
  | cons c rest ih =>
      intro l2 pos s
      rw [List.cons_append, runFrom_cons, runFrom_cons, ih]
      simp [Nat.add_assoc, Nat.add_comm 1 rest.length]

theorem runFrom_contig (stream : List Int) (first : Int) :
    ∀ (k pos : Nat) (e : Int) (lost dups : Nat) (mask : List Bool),
      e + (k : Int) ≤ 65536 →
      runFrom stream first pos (intRange e (e + (k : Int))) ⟨e, lost, dups, mask⟩ =
        ⟨if e + (k : Int) = 65536 ∧ 0 < k then 0 else e + (k : Int),
         lost, dups, mask ++ List.replicate k true⟩ := by
  intro k
  induction k with
  | zero =>
      intro pos e lost dups mask h
      rw [show e + ((0 : Nat) : Int) = e by omega, intRange_eq_nil le_rfl, runFrom_nil]
      simp
  | succ n ih =>
      intro pos e lost dups mask h
      have hcast : ((n + 1 : Nat) : Int) = (n : Int) + 1 := by push_cast; ring
      have hn65 : e + (n : Int) + 1 ≤ 65536 := by omega
      have hlt : e < e + ((n + 1 : Nat) : Int) := by omega
      rw [intRange_cons hlt, runFrom_cons,
          @step_in_order stream first pos e ⟨e, lost, dups, mask⟩ rfl]
      dsimp only
      by_cases hw : e + 1 ≤ 65535
      · rw [@resetWrap_of_le ⟨e + 1, lost, dups, mask ++ [true]⟩ hw]
        rw [show e + ((n + 1 : Nat) : Int) = (e + 1) + (n : Int) by omega]
        rw [ih (pos + 1) (e + 1) lost dups (mask ++ [true]) (by omega)]
        simp only [RState.mk.injEq]
        refine ⟨?_, trivial, trivial, by simp [List.replicate_succ]⟩
        split_ifs with h1 h2 h2 <;> omega
      · have he : e = 65535 := by omega
        have hzero : n = 0 := by omega
        subst hzero
        rw [@resetWrap_of_gt ⟨e + 1, lost, dups, mask ++ [true]⟩ (by dsimp only; omega)]
        dsimp only
        rw [show e + ((0 + 1 : Nat) : Int) = e + 1 by omega, intRange_eq_nil le_rfl,
            runFrom_nil]
        simp only [RState.mk.injEq]
        refine ⟨?_, trivial, trivial, by simp [List.replicate_succ]⟩
        rw [if_pos ⟨by omega, by omega⟩]

/-- Every packet classified by one of the four branches contributes exactly one
mask bit, and the duplicate counter counts exactly the `false` bits: the
kept-bit count plus the duplicate count equals the mask length. -/
def maskInv (s : RState) : Prop :=
  s.mask.countP (fun b => b) + s.dups = s.mask.length

theorem maskInv_resetWrap (s : RState) : maskInv (resetWrap s) ↔ maskInv s := by
  rw [resetWrap]
  split <;> rfl

theorem maskInv_step (stream : List Int) (first : Int) (pos : Nat) (current : Int)
    (s : RState) (h : maskInv s) : maskInv (step stream first pos current s) := by
  rw [step]
  rw [maskInv_resetWrap]
  unfold maskInv at h ⊢
  split_ifs <;> first
    | exact h
    | (simp [List.countP_append, List.countP_cons]; omega)

theorem maskInv_runFrom (stream : List Int) (first : Int) :
    ∀ (l : List Int) (pos : Nat) (s : RState), maskInv s →
      maskInv (runFrom stream first pos l s) := by
  intro l
  induction l with
  | nil => intro pos s h; exact h
  | cons c rest ih =>
      intro pos s h
      rw [runFrom_cons]
      exact ih (pos + 1) _ (maskInv_step stream first pos c s h)

theorem maskInv_reconcileState (packets : List Packet) :
    maskInv (reconcileState packets) := by
  cases packets with
  | nil => rfl
  | cons p rest =>
      exact maskInv_runFrom _ _ _ 0 _ rfl

theorem compress_nil_mask {α : Type} (l : List α) : compress l [] = [] := by
  simp [compress]

theorem compress_cons {α : Type} (a : α) (l : List α) (b : Bool) (m : List Bool) :
    compress (a :: l) (b :: m) = (if b then [a] else []) ++ compress l m := by
  cases b <;> simp [compress]

theorem compress_length {α : Type} :
    ∀ (m : List Bool) (l : List α), m.length ≤ l.length →
      (compress l m).length = m.countP (fun b => b) := by
  intro m
  induction m with
  | nil => intro l h; simp [compress]
  | cons b bs ih =>
      intro l h
      cases l with
      | nil => simp at h
      | cons a as =>
          rw [compress_cons]
          cases b <;> simp [List.countP_cons, ih as (by simp at h; omega)]

theorem compress_replicate_true {α : Type} :
    ∀ l : List α, compress l (List.replicate l.length true) = l := by
  intro l
  induction l with
  | nil => rfl
  | cons a as ih => simp [List.replicate_succ, compress_cons, ih]

theorem compress_dup_mask {α : Type} :
    ∀ (n : Nat) (l : List α) (m : Nat), l.length = n + 1 + m →
      compress l (List.replicate n true ++ false :: List.replicate m true) =
        l.take n ++ l.drop (n + 1) := by
  intro n
  induction n with
  | zero =>
      intro l m h
      cases l with
      | nil => simp at h; omega
      | cons a as =>
          rw [List.replicate, List.nil_append, compress_cons]
          have hlen : as.length = m := by simp at h; omega
          simp [hlen ▸ compress_replicate_true as]
  | succ n ih =>
      intro l m h
      cases l with
      | nil => simp at h; omega
      | cons a as =>
          rw [List.replicate_succ, List.cons_append, compress_cons]
          have hlen : as.length = n + 1 + m := by simp at h; omega
          simp [ih as m hlen]

theorem diffs_length : ∀ l : List ℚ, (diffs l).length = l.length - 1
  | [] => rfl
  | [_] => rfl
  | a :: b :: rest => by
      rw [diffs, List.length_cons, diffs_length (b :: rest)]
      simp

theorem calcJitterGo_length : ∀ (ds : List ℚ) (last : ℚ),
    (calcJitterGo last ds).length = ds.length := by
  intro ds
  induction ds with
  | nil => intro last; rfl
  | cons d rest ih => intro last; simp [calcJitterGo, ih]

theorem absDiffsOf_length (clean : List Packet) :
    (absDiffsOf clean).length = clean.length - 1 := by
  rw [absDiffsOf, List.length_zipWith, List.length_map, List.length_map,
      diffs_length, diffs_length, List.length_map, List.length_map]
  simp

theorem calcJitterGo_getD_succ :
    ∀ (ds : List ℚ) (last : ℚ) (i : Nat), i + 1 < ds.length →
      (calcJitterGo last ds).getD (i + 1) 0 =
        (calcJitterGo last ds).getD i 0 +
          (ds.getD (i + 1) 0 - (calcJitterGo last ds).getD i 0) / 16 := by
  intro ds
  induction ds with
  | nil => intro last i h; simp at h
  | cons d rest ih =>
      intro last i h
      cases i with
      | zero =>
          cases rest with
          | nil => simp at h
          | cons r rs => simp [calcJitterGo]
      | succ j =>
          rw [calcJitterGo]
          rw [List.getD_cons_succ, List.getD_cons_succ, List.getD_cons_succ]
          exact ih _ j (by simpa using h)

theorem jitterBuffer_error (packets : List Packet) (e : PyError)
    (h : jitterBuffer packets = Except.error e) :
    packets = [] ∧ e = PyError.indexError := by
  cases packets with
  | nil =>
      refine ⟨rfl, ?_⟩
      rw [jitterBuffer] at h
      exact (Except.error.injEq _ _).mp h.symm
  | cons p rest => simp [jitterBuffer] at h

theorem streamStats_of_ok (packets : List Packet) (jb : JB)
    (h : jitterBuffer packets = Except.ok jb) :
    streamStats packets = streamStatsClean jb.data := by
  rw [streamStats, h]

theorem streamStats_of_error (packets : List Packet) (e : PyError)
    (h : jitterBuffer packets = Except.error e) :
    streamStats packets = Except.error e := by
  rw [streamStats, h]

theorem streamStatsClean_cons_ok (c : Packet) (cs : List Packet)
    (hz : ¬(audioOf (c :: cs) ≠ [] ∧
            ((audioOf (c :: cs)).map (fun x => x * x)).sum = 0)) :
    streamStatsClean (c :: cs) = Except.ok
      { codecs := (((c :: cs).map Packet.p_type).dedup).map RTP_PAYLOADS,
        deltas := (diffs ((c :: cs).map Packet.frametime)).map (fun d => d * 1000),
        duration := ((c :: cs).map Packet.frametime).getLastD 0 - c.frametime,
        sample_rate := 8000,
        jitter := calcJitter (absDiffsOf (c :: cs)),
        audio := audioOf (c :: cs),
        rmsSq := if (audioOf (c :: cs)).length = 0 then none
                 else some (((((audioOf (c :: cs)).map (fun x => x * x)).sum : Int) : ℚ) /
                            ((audioOf (c :: cs)).length : ℚ)) } := by
  rw [streamStatsClean]
  rw [if_neg hz]

theorem streamStatsClean_cons_zero (c : Packet) (cs : List Packet)
    (hz : audioOf (c :: cs) ≠ [] ∧
          ((audioOf (c :: cs)).map (fun x => x * x)).sum = 0) :
    streamStatsClean (c :: cs) = Except.error PyError.valueError := by
  rw [streamStatsClean]
  rw [if_pos hz]

theorem resetWrap_lost (s : RState) : (resetWrap s).lost = s.lost := by
  rw [resetWrap]
  split <;> rfl

theorem runFrom_intRange2 (stream : List Int) (first : Int) (pos : Nat) (a b : Int)
    (lost dups : Nat) (mask : List Bool) (hab : a ≤ b) (hb : b ≤ 65536) :
    runFrom stream first pos (intRange a b) ⟨a, lost, dups, mask⟩ =
      ⟨if b = 65536 ∧ a < b then 0 else b, lost, dups,
       mask ++ List.replicate (b - a).toNat true⟩ := by
  have hcontig := runFrom_contig stream first (b - a).toNat pos a lost dups mask (by omega)
  rw [show a + (((b - a).toNat : Nat) : Int) = b by omega] at hcontig
  have hcond : (b = 65536 ∧ 0 < (b - a).toNat) ↔ (b = 65536 ∧ a < b) := by
    constructor <;> intro hx <;> exact ⟨hx.1, by omega⟩
  rw [hcontig, if_congr hcond rfl rfl]

theorem jb_c8 : jitterBuffer c8pkts = Except.ok ⟨0, 0, 0, [pA, pB]⟩ := by
  rw [jitterBuffer_eq _ (by decide)]
  rw [show reconcileState c8pkts = ⟨2, 0, 0, [true, true]⟩ from by decide]
  exact congrArg Except.ok
    (jbCongr (by norm_num [c8pkts]) (by decide) (by norm_num [c8pkts]) (by decide))

theorem streamStats_c8 : streamStats c8pkts = Except.ok c8stats := by
  rw [streamStats_of_ok _ _ jb_c8]
  rw [show (⟨0, 0, 0, [pA, pB]⟩ : JB).data = pA :: [pB] from rfl]
  rw [streamStatsClean_cons_ok pA [pB] (by decide)]
  refine congrArg Except.ok (statsCongr ?_ ?_ ?_ ?_ ?_ ?_ ?_)
  · decide
  · norm_num [pA, pB, diffs]
  · norm_num [pA, pB, List.getLastD]
  · rfl
  · norm_num [absDiffsOf, pA, pB, diffs, calcJitter, calcJitterGo]
  · decide
  · norm_num [audioOf, pA, pB, byteToInt8]

theorem jb_c5 : jitterBuffer c5pkts = Except.ok ⟨0, 0, 0, [pA]⟩ := by
  rw [jitterBuffer_eq _ (by decide)]
  rw [show reconcileState c5pkts = ⟨1, 0, 0, [true]⟩ from by decide]
  exact congrArg Except.ok
    (jbCongr (by norm_num [c5pkts]) (by decide) (by norm_num [c5pkts]) (by decide))

theorem streamStats_c5 : streamStats c5pkts = Except.ok c5stats := by
  rw [streamStats_of_ok _ _ jb_c5]
  rw [show (⟨0, 0, 0, [pA]⟩ : JB).data = pA :: [] from rfl]
  rw [streamStatsClean_cons_ok pA [] (by decide)]
  refine congrArg Except.ok (statsCongr ?_ ?_ ?_ ?_ ?_ ?_ ?_)
  · decide
  · norm_num [pA, diffs]
  · norm_num [pA, List.getLastD]
  · rfl
  · norm_num [absDiffsOf, pA, diffs, calcJitter, calcJitterGo]
  · decide
  · norm_num [audioOf, pA, byteToInt8]

theorem streamStats_error_cases (packets : List Packet) (e : PyError)
    (h : streamStats packets = Except.error e) :
    e = PyError.indexError ∨ e = PyError.valueError := by
  cases hjb : jitterBuffer packets with
  | error e2 =>
      left
      have h2 := (streamStats_of_error _ _ hjb).symm.trans h
      injection h2 with h3
      rw [← h3]
      exact (jitterBuffer_error _ _ hjb).2
  | ok jb =>
      rw [streamStats_of_ok _ _ hjb] at h
      cases hd : jb.data with
      | nil =>
          rw [hd] at h
          left
          have h2 : (Except.error PyError.indexError : Except PyError Stats) =
              Except.error e := h
          injection h2 with h3
          exact h3.symm
      | cons c cs =>
          rw [hd] at h
          by_cases hz : audioOf (c :: cs) ≠ [] ∧
              ((audioOf (c :: cs)).map (fun x => x * x)).sum = 0
          · right
            have h2 := (streamStatsClean_cons_zero _ _ hz).symm.trans h
            injection h2 with h3
            exact h3.symm
          · rw [streamStatsClean_cons_ok _ _ hz] at h
            exact absurd h (by simp)

theorem lookahead_c10 :
    lookahead [(1 : Int), 0] (intRange 2 (RTP_MAX_SEQ + 1) ++ intRange 0 0) 1 = 65534 := by
  rw [intRange_eq_nil le_rfl, List.append_nil]
  rw [lookahead_of_none]
  · rw [intRange_length]
    rfl
  · intro g hg hmem
    rw [mem_intRange] at hg
    have : g = 0 := by simpa using hmem
    omega

theorem lookahead_c10_proj :
    lookahead [(1 : Int), 0]
      (intRange (RState.expected ⟨2, 0, 0, [true]⟩) (RTP_MAX_SEQ + 1) ++ intRange 0 0)
      (0 + 1) = 65534 :=
  lookahead_c10

theorem reconcile_c10 : reconcileState c10pkts = ⟨1, 65534, 0, [true, true]⟩ := by
  show runFrom [(1 : Int), 0] 1 0 [1, 0] ⟨1, 0, 0, []⟩ = _
  rw [runFrom_cons, show step [(1 : Int), 0] 1 0 1 ⟨1, 0, 0, []⟩ = ⟨2, 0, 0, [true]⟩
      from by decide]
  rw [runFrom_cons, runFrom_nil]
  rw [step_wrapgap (by decide) (by decide) (by decide) (by decide)]
  rw [lookahead_c10_proj]
  rw [resetWrap_of_le (by decide)]
  decide

theorem lookahead_c3cex :
    lookahead [(65535 : Int), 65535] (intRange 0 65535) 1 = 65535 := by
  rw [lookahead_of_none]
  · rw [intRange_length]
    rfl
  · intro g hg hmem
    rw [mem_intRange] at hg
    have : g = 65535 := by simpa using hmem
    omega

theorem lookahead_c3cex_proj :
    lookahead [(65535 : Int), 65535]
      (intRange (RState.expected ⟨0, 0, 0, [true]⟩) 65535) (0 + 1) = 65535 :=
  lookahead_c3cex

theorem reconcile_c3cex : reconcileState c3cexPkts = ⟨0, 65535, 0, [true, true]⟩ := by
  show runFrom [(65535 : Int), 65535] 65535 0 [65535, 65535] ⟨65535, 0, 0, []⟩ = _
  rw [runFrom_cons,
      show step [(65535 : Int), 65535] 65535 0 65535 ⟨65535, 0, 0, []⟩ = ⟨0, 0, 0, [true]⟩
        from by decide]
  rw [runFrom_cons, runFrom_nil]
  rw [step_gap (by decide)]
  rw [lookahead_c3cex_proj]
  rw [resetWrap_of_gt (by decide)]
  decide

end Aiortp


namespace Aiortp

/-- C1 (counterexample): on the stream with `seq` values `[5, 6, 7, 6]` the
final packet falls through every classification branch, so it is neither kept
nor counted as a duplicate: the clean sequence has 3 packets, the duplicate
count is 0, and `3 + 0 < 4`, refuting
`len(cleanSequence) + duplicateCount == originalPacketCount`. -/
theorem c1_cex :
    jitterBuffer c1cexPkts = Except.ok ⟨0, 0, 0, [mkPkt 5, mkPkt 6, mkPkt 7]⟩ ∧
    (reconcileState c1cexPkts).dups = 0 ∧
    [mkPkt 5, mkPkt 6, mkPkt 7].length + (reconcileState c1cexPkts).dups <
      c1cexPkts.length := by
  refine ⟨?_, by decide, by decide⟩
  rw [jitterBuffer_eq _ (by decide)]
  rw [show reconcileState c1cexPkts = ⟨8, 0, 0, [true, true, true]⟩ from by decide]
  exact congrArg Except.ok
    (jbCongr (by norm_num [c1cexPkts]) (by decide) (by norm_num [c1cexPkts]) (by decide))

/-- C1 (amended): provided every input packet is classified by one of the four
branches (equivalently, the duplicate mask has one bit per packet), the clean
sequence length plus the duplicate count equals the original packet count. -/
theorem c1_inv (packets : List Packet) (jb : JB)
    (h : jitterBuffer packets = Except.ok jb)
    (hm : (reconcileState packets).mask.length = packets.length) :
    jb.data.length + (reconcileState packets).dups = packets.length := by
  cases packets with
  | nil => simp [jitterBuffer] at h
  | cons p rest =>
      have hjb := (jitterBuffer_eq (p :: rest) (List.cons_ne_nil p rest)).symm.trans h
      injection hjb with h2
      rw [← h2]
      dsimp only
      have hinv := maskInv_reconcileState (p :: rest)
      unfold maskInv at hinv
      rw [compress_length _ _ (le_of_eq hm)]
      omega

/-- C1 (witness): the amended invariant at the concrete in-order stream
`[0, 1, 2]`. -/
theorem c1_inv_witness :
    jitterBuffer c1wPkts = Except.ok ⟨0, 0, 0, c1wPkts⟩ ∧
    (reconcileState c1wPkts).mask.length = c1wPkts.length ∧
    (⟨0, 0, 0, c1wPkts⟩ : JB).data.length + (reconcileState c1wPkts).dups =
      c1wPkts.length := by
  have hjb : jitterBuffer c1wPkts = Except.ok ⟨0, 0, 0, c1wPkts⟩ := by
    rw [jitterBuffer_eq _ (by decide)]
    rw [show reconcileState c1wPkts = ⟨3, 0, 0, [true, true, true]⟩ from by decide]
    exact congrArg Except.ok
      (jbCongr (by norm_num [c1wPkts]) (by decide) (by norm_num [c1wPkts]) (by decide))
  exact ⟨hjb, by decide, c1_inv c1wPkts _ hjb (by decide)⟩

/-- C2 (counterexample): in the stream with `seq` values
`[0, 2, 3, 4, 5, 6, 7, 8, 9, 10, 11, 1]` the only gap value, 1, arrives
exactly 10 positions after the gap-detecting packet (position 1), i.e. among
the next 10 packets by arrival position — yet the reconciler counts it as
lost, because the code's window `stream[position:position+10]` starts at the
gap-detecting packet itself and so reaches only 9 packets ahead. -/
theorem c2_cex :
    (reconcileState c2cexPkts).lost = 1 ∧
    (1 : Int) ∈ ((c2cexPkts.map Packet.seq).drop 2).take 10 := by
  refine ⟨by decide, by decide⟩

/-- C2 (amended): on a forward gap the lost counter increases by exactly the
number of gap values absent from the 10-packet window starting at the
gap-detecting packet itself (the packet plus the next 9 by arrival position);
for the stream `[0..4, 8, 9, 10]` with 5–7 missing and never arriving,
`lostCount = 3`. -/
theorem c2_gap_lookahead :
    (∀ (stream : List Int) (first : Int) (pos : Nat) (current : Int) (s : RState),
      s.expected < current →
      (step stream first pos current s).lost =
        s.lost + ((intRange s.expected current).filter
          (fun g => decide (g ∉ (stream.drop pos).take 10))).length) ∧
    (reconcileState c2pkts).lost = 3 := by
  constructor
  · intro stream first pos current s h
    rw [step_gap h, resetWrap_lost]
    dsimp only
    rw [lookahead_eq]
  · decide

/-- C2 (witness): the amended gap rule at a concrete state: expected 5,
arriving 8, empty stream (so nothing in the window): all 3 gap values lost. -/
theorem c2_gap_lookahead_witness :
    (⟨5, 0, 0, []⟩ : RState).expected < 8 ∧
    (step [] 0 0 8 ⟨5, 0, 0, []⟩).lost =
      (⟨5, 0, 0, []⟩ : RState).lost + ((intRange (⟨5, 0, 0, []⟩ : RState).expected 8).filter
        (fun g => decide (g ∉ (([] : List Int).drop 0).take 10))).length :=
  ⟨by decide, c2_gap_lookahead.1 [] 0 0 8 ⟨5, 0, 0, []⟩ (by decide)⟩

end Aiortp

namespace Aiortp

/-- C3 (counterexample): in the two-packet stream `[65535, 65535]` the second
packet repeats the first immediately, yet after processing the first packet
the expected counter has wrapped to 0, so the repeat hits the forward-gap
branch: the duplicate ratio is 0 (not `1/N = 1/2 > 0`), the repeated packet is
kept in the clean sequence, and 65535 packets are counted lost. -/
theorem c3_cex :
    jitterBuffer c3cexPkts = Except.ok ⟨0, 65535, 65535 / 2, c3cexPkts⟩ ∧
    (0 : ℚ) < 1 / (c3cexPkts.length : ℚ) := by
  constructor
  · rw [jitterBuffer_eq _ (by decide), reconcile_c3cex]
    exact congrArg Except.ok
      (jbCongr (by norm_num [c3cexPkts]) (by decide) (by norm_num [c3cexPkts]) (by decide))
  · norm_num [c3cexPkts]

/-- C3 (amended): for every stream whose `seq` values are contiguous from `a`
with one immediate repeat of the value `b - 1`, provided the repeated value is
below 65535 (so the expected counter has not just wrapped) and the stream does
not wrap, the reconciler counts exactly one duplicate (ratio `1/N`), loses
nothing, and excludes exactly the repeated packet from the clean sequence. -/
theorem c3_dup (packets : List Packet) (a b c : Int)
    (hmap : packets.map Packet.seq = intRange a b ++ (b - 1) :: intRange b c)
    (hab : a < b) (hdup : b - 1 < RTP_MAX_SEQ) (hbc : b ≤ c) (hc : c ≤ RTP_MAX_SEQ + 1) :
    jitterBuffer packets = Except.ok
      { duplicates := 1 / (packets.length : ℚ),
        lost := 0,
        loss := 0,
        data := packets.take (b - a).toNat ++ packets.drop ((b - a).toNat + 1) } := by
  simp only [RTP_MAX_SEQ] at hdup hc
  cases packets with
  | nil => simp at hmap
  | cons p rest =>
      have hfirst : p.seq = a := by
        have h0 := congrArg (fun l => l.headD 0) hmap
        rw [intRange_cons hab] at h0
        simpa using h0
      have hlen : (p :: rest).length = (b - a).toNat + 1 + (c - b).toNat := by
        have h2 := congrArg List.length hmap
        simp only [List.length_map, List.length_append, List.length_cons,
          intRange_length] at h2
        simp only [List.length_cons]
        omega
      have hstate : reconcileState (p :: rest) =
          runFrom ((p :: rest).map Packet.seq) p.seq 0 ((p :: rest).map Packet.seq)
            ⟨p.seq, 0, 0, []⟩ := rfl
      rw [jitterBuffer_eq _ (List.cons_ne_nil p rest), hstate, hmap, hfirst]
      rw [runFrom_append]
      rw [runFrom_intRange2 _ _ _ a b 0 0 [] (le_of_lt hab) (by omega)]
      rw [if_neg (show ¬((b : Int) = 65536 ∧ a < b) by omega)]
      rw [runFrom_cons]
      rw [step_dup (by dsimp only; omega) (by dsimp only)]
      rw [resetWrap_of_le (by dsimp only; omega)]
      dsimp only
      rw [runFrom_intRange2 _ _ _ b c _ _ _ hbc (by omega)]
      refine congrArg Except.ok (jbCongr ?_ rfl ?_ ?_)
      · dsimp only
        norm_num
      · dsimp only
        norm_num
      · dsimp only
        rw [List.nil_append, List.append_assoc, List.singleton_append]
        exact compress_dup_mask _ _ _ hlen

/-- C3 (witness): the amended duplicate property at the concrete stream
`[0, 1, 2, 2, 3, 4]` (repeat of `seq = 2` at index 2). -/
theorem c3_dup_witness :
    c3wPkts.map Packet.seq = intRange 0 3 ++ (3 - 1) :: intRange 3 5 ∧
    jitterBuffer c3wPkts = Except.ok
      { duplicates := 1 / (c3wPkts.length : ℚ), lost := 0, loss := 0,
        data := c3wPkts.take 2 ++ c3wPkts.drop 3 } :=
  ⟨by decide,
   c3_dup c3wPkts 0 3 5 (by decide) (by decide) (by decide) (by decide) (by decide)⟩

/-- C4 (counterexample): reconciling the empty packet list fails with an
`IndexError` (reading `stream[0]`), not with `EmptyStreamError` — no such
error class exists in the code. -/
theorem c4_cex :
    jitterBuffer ([] : List Packet) = Except.error PyError.indexError ∧
    PyError.indexError ≠ PyError.emptyStreamError :=
  ⟨rfl, by decide⟩

/-- C4 (amended): reconciliation of the empty packet list fails, but with an
index error from reading the first element of the empty stream. -/
theorem c4_empty : jitterBuffer ([] : List Packet) = Except.error PyError.indexError :=
  rfl

end Aiortp

namespace Aiortp

/-- C5 (counterexample): on a single-packet input the clean sequence has
length 1 (fewer than two packets), yet the statistics calculation succeeds
with a record (whose jitter series is empty) instead of failing with
`InsufficientDataError`. -/
theorem c5_cex :
    streamStats c5pkts = Except.ok c5stats ∧ (cleanOf c5pkts).length = 1 ∧
    c5stats.jitter = [] :=
  ⟨streamStats_c5, by decide, rfl⟩

/-- C5 (amended): the statistics calculation never fails with
`InsufficientDataError` (no such error exists in the code): every failure is
either an index error (empty input) or a math-domain error from `log10`
(non-empty, all-zero audio); a single clean packet with non-empty payload
yields a record with an empty jitter series. -/
theorem c5_errors :
    (∀ (packets : List Packet) (e : PyError), streamStats packets = Except.error e →
      e = PyError.indexError ∨ e = PyError.valueError) ∧
    streamStats c5pkts = Except.ok c5stats ∧ c5stats.jitter = [] :=
  ⟨streamStats_error_cases, streamStats_c5, rfl⟩

/-- C5 (witness): the error classification at the empty input, where the
calculation fails with an index error. -/
theorem c5_errors_witness :
    streamStats ([] : List Packet) = Except.error PyError.indexError ∧
    (PyError.indexError = PyError.indexError ∨ PyError.indexError = PyError.valueError) :=
  ⟨rfl, c5_errors.1 [] PyError.indexError rfl⟩

/-- C6: the stream with `seq` values `[65533, 65534, 65535, 0, 1]` is treated
as contiguous across the 16-bit wraparound: nothing lost, nothing duplicated,
all five packets kept. -/
theorem c6_wraparound : jitterBuffer c6pkts = Except.ok ⟨0, 0, 0, c6pkts⟩ := by
  rw [jitterBuffer_eq _ (by decide)]
  rw [show reconcileState c6pkts = ⟨2, 0, 0, [true, true, true, true, true]⟩
      from by decide]
  exact congrArg Except.ok
    (jbCongr (by norm_num [c6pkts]) (by decide) (by norm_num [c6pkts]) (by decide))

/-- C7: for the stream `[0, 1, 2, 3, 4, 8, 5, 6, 7, 9]`, where `seq` 5–7 are
missing at their expected positions but arrive reordered within the lookahead
window, the reconciler reports zero lost packets. -/
theorem c7_reorder_absorbed :
    jitterBuffer c7pkts = Except.ok ⟨0, 0, 0, c7pkts.take 7⟩ := by
  rw [jitterBuffer_eq _ (by decide)]
  rw [show reconcileState c7pkts =
      ⟨10, 0, 0, [true, true, true, true, true, true, true]⟩ from by decide]
  exact congrArg Except.ok
    (jbCongr (by norm_num [c7pkts]) (by decide) (by norm_num [c7pkts]) (by decide))

/-- C8: the jitter series has length `len(clean) - 1`; it is exactly what the
statistics record carries; and it satisfies the RFC 3550 recurrence
`J_n = J_{n-1} + (absDiff_n - J_{n-1})/16` seeded with `J_{-1} = 0`, so in
particular `J_0 = absDiff_0 / 16`. -/
theorem c8_jitter (packets : List Packet) :
    (jitterOf packets).length = (cleanOf packets).length - 1 ∧
    (∀ s : Stats, streamStats packets = Except.ok s → s.jitter = jitterOf packets) ∧
    (0 < (jitterOf packets).length →
      (jitterOf packets).getD 0 0 = (absDiffsOf (cleanOf packets)).getD 0 0 / 16) ∧
    (∀ i : Nat, i + 1 < (jitterOf packets).length →
      (jitterOf packets).getD (i + 1) 0 =
        (jitterOf packets).getD i 0 +
          ((absDiffsOf (cleanOf packets)).getD (i + 1) 0 -
            (jitterOf packets).getD i 0) / 16) := by
  refine ⟨?_, ?_, ?_, ?_⟩
  · rw [jitterOf, calcJitter, calcJitterGo_length, absDiffsOf_length]
  · intro s h
    cases hjb : jitterBuffer packets with
    | error e =>
        rw [streamStats_of_error _ _ hjb] at h
        exact absurd h (by simp)
    | ok jb =>
        rw [streamStats_of_ok _ _ hjb] at h
        cases hd : jb.data with
        | nil =>
            rw [hd] at h
            simp [streamStatsClean] at h
        | cons cP cs =>
            rw [hd] at h
            by_cases hz : audioOf (cP :: cs) ≠ [] ∧
                ((audioOf (cP :: cs)).map (fun x => x * x)).sum = 0
            · rw [streamStatsClean_cons_zero _ _ hz] at h
              exact absurd h (by simp)
            · rw [streamStatsClean_cons_ok _ _ hz] at h
              injection h with h2
              rw [← h2]
              dsimp only
              simp only [jitterOf, cleanOf, hjb, hd]
  · intro h0
    rw [jitterOf, calcJitter] at h0 ⊢
    cases hds : absDiffsOf (cleanOf packets) with
    | nil => rw [hds] at h0; simp [calcJitterGo] at h0
    | cons d rest =>
        show (0 : ℚ) + (d - 0) / 16 = ((d :: rest).getD 0 0) / 16
        rw [List.getD_cons_zero]
        ring
  · intro i h
    rw [jitterOf, calcJitter] at h ⊢
    exact calcJitterGo_getD_succ _ 0 i
      (by rw [calcJitterGo_length] at h; exact h)

/-- C8 (witness): the jitter-series properties at the concrete two-packet
input `c8pkts` (one delta, zero instantaneous jitter). -/
theorem c8_jitter_witness :
    (jitterOf c8pkts).length = (cleanOf c8pkts).length - 1 ∧
    c8stats.jitter = jitterOf c8pkts ∧
    (0 < (jitterOf c8pkts).length ∧
      (jitterOf c8pkts).getD 0 0 = (absDiffsOf (cleanOf c8pkts)).getD 0 0 / 16) :=
  ⟨(c8_jitter c8pkts).1, (c8_jitter c8pkts).2.1 c8stats streamStats_c8,
   by decide, (c8_jitter c8pkts).2.2.1 (by decide)⟩

/-- C9: every stream with strictly increasing, contiguous `seq` values and no
wraparound is reconciled with zero loss, zero duplicates, and a clean sequence
equal to the input. -/
theorem c9_contiguous (packets : List Packet) (a b : Int)
    (hmap : packets.map Packet.seq = intRange a b)
    (hne : packets ≠ []) (hb : b ≤ RTP_MAX_SEQ + 1) :
    jitterBuffer packets = Except.ok ⟨0, 0, 0, packets⟩ := by
  simp only [RTP_MAX_SEQ] at hb
  cases packets with
  | nil => exact absurd rfl hne
  | cons p rest =>
      have hab : a < b := by
        have h2 := congrArg List.length hmap
        simp only [List.length_map, List.length_cons, intRange_length] at h2
        omega
      have hfirst : p.seq = a := by
        have h0 := congrArg (fun l => l.headD 0) hmap
        rw [intRange_cons hab] at h0
        simpa using h0
      have hlen : (p :: rest).length = (b - a).toNat := by
        have h2 := congrArg List.length hmap
        simp only [List.length_map] at h2
        rw [h2, intRange_length]
      have hstate : reconcileState (p :: rest) =
          runFrom ((p :: rest).map Packet.seq) p.seq 0 ((p :: rest).map Packet.seq)
            ⟨p.seq, 0, 0, []⟩ := rfl
      rw [jitterBuffer_eq _ hne, hstate, hmap, hfirst]
      rw [runFrom_intRange2 _ _ _ a b 0 0 [] (le_of_lt hab) (by omega)]
      refine congrArg Except.ok (jbCongr ?_ rfl ?_ ?_)
      · dsimp only
        norm_num
      · dsimp only
        norm_num
      · dsimp only
        rw [List.nil_append, ← hlen, compress_replicate_true]

/-- C9 (witness): the contiguous-stream property at the concrete stream with
`seq` values `[10, 11, 12]`. -/
theorem c9_contiguous_witness :
    c9wPkts.map Packet.seq = intRange 10 13 ∧ c9wPkts ≠ [] ∧
    (13 : Int) ≤ RTP_MAX_SEQ + 1 ∧
    jitterBuffer c9wPkts = Except.ok ⟨0, 0, 0, c9wPkts⟩ :=
  ⟨by decide, by decide, by decide,
   c9_contiguous c9wPkts 10 13 (by decide) (by decide) (by decide)⟩

/-- C10: on the two-packet stream with `seq` values `[1, 0]` the wraparound
branch counts the whole wrapped gap as lost: 65534 lost packets and a loss
ratio of 32767, far exceeding the number of input packets — the loss ratio is
not bounded by 1. -/
theorem c10_loss_unbounded :
    jitterBuffer c10pkts = Except.ok ⟨0, 65534, 32767, c10pkts⟩ ∧
    (c10pkts.length : ℚ) < 32767 := by
  constructor
  · rw [jitterBuffer_eq _ (by decide), reconcile_c10]
    exact congrArg Except.ok
      (jbCongr (by norm_num [c10pkts]) (by decide) (by norm_num [c10pkts]) (by decide))
  · norm_num [c10pkts]

end Aiortp
